import Mathlib

/-!
Shallow embedding of the MySQL-to-ClickHouse migration core
(`src/mysql_to_clickhouse.py`, class `MySQLToClickHouseMigration`).

Pure pieces (type mapping, row conversion, batching, verification logic)
are translated directly from the source; database and notifier side
effects are made explicit (written batches and notification events are
returned as data, fallible calls return `Except String`).  Wall-clock
readings, which the source obtains from `time.time()`, are passed in as
explicit `Rat` parameters.
-/

/-- Dynamic values held in a row, as produced by the MySQL driver:
integers, strings, floats are opaque here except for the temporal kinds
the transfer loop inspects.  `dateV`/`timeV`/`datetimeV` model Python
`datetime.date` / `datetime.timedelta` (TIME columns) / `datetime.datetime`
objects; only the last is an `isinstance(value, datetime)` match in the
source. -/
inductive Value where
  | null : Value
  | intV : Int → Value
  | strV : String → Value
  | dateV : Nat → Nat → Nat → Value
  | timeV : Nat → Nat → Nat → Value
  | datetimeV : Nat → Nat → Nat → Nat → Nat → Nat → Value
deriving DecidableEq, Repr

/-- Zero-pad a numeral to width 2, as `%m`, `%d`, `%H`, `%M`, `%S` do. -/
def pad2 (n : Nat) : String :=
  if n < 10 then "0" ++ toString n else toString n

/-- Zero-pad a numeral to width 4, as `%Y` does. -/
def pad4 (n : Nat) : String :=
  if n < 10 then "000" ++ toString n
  else if n < 100 then "00" ++ toString n
  else if n < 1000 then "0" ++ toString n
  else toString n

/-- `value.strftime('%Y-%m-%d %H:%M:%S')` from `migrate_data`. -/
def formatDatetime (y mo d h mi s : Nat) : String :=
  pad4 y ++ "-" ++ pad2 mo ++ "-" ++ pad2 d ++ " " ++
    pad2 h ++ ":" ++ pad2 mi ++ ":" ++ pad2 s

/-- Per-value conversion in the row loop of `migrate_data`
(lines 365-373): only `datetime` instances are reformatted, every other
value (including `date` and `time`/`timedelta` values) is kept as is. -/
def convertValue (v : Value) : Value :=
  match v with
  | .datetimeV y mo d h mi s => .strV (formatDatetime y mo d h mi s)
  | v => v

/-- A date-, time-, or datetime-kind value. -/
def isTemporalValue (v : Value) : Bool :=
  match v with
  | .dateV _ _ _ => true
  | .timeV _ _ _ => true
  | .datetimeV _ _ _ _ _ _ => true
  | _ => false

/-- A datetime-kind value (the only kind `isinstance(value, datetime)`
accepts in the source). -/
def isDatetimeValue (v : Value) : Bool :=
  match v with
  | .datetimeV _ _ _ _ _ _ => true
  | _ => false

/-- A string value. -/
def isStringValue (v : Value) : Bool :=
  match v with
  | .strV _ => true
  | _ => false

/-- One MySQL source table, abstracted to what `migrate_data` reads from
it: the column names resolved by the single-row probe, and the rows the
streaming cursor yields, each a positional tuple aligned to the columns. -/
structure SourceTable where
  columnNames : List String
  rows : List (List Value)
deriving DecidableEq, Repr

/-- `row_data` built for one row in `migrate_data`: iterate over the
column positions and convert the value at each position. -/
def convertRow (columnNames : List String) (row : List Value) : List Value :=
  (List.range columnNames.length).map (fun i => convertValue (row.getD i .null))

/-- The streaming read/batch/flush loop of `migrate_data` (lines
344-413 plus the end-of-stream flush): rows are appended to the current
batch; once the batch reaches `batchSize` it is bulk-inserted (recorded
in the accumulator) and cleared; the leftover partial batch is flushed
at end of stream.  Returns `(migrated_rows, written batches)`. -/
def transferLoop (cols : List String) (batchSize : Nat) :
    List (List Value) → List (List Value) → Nat → List (List (List Value)) →
    Nat × List (List (List Value))
  | [], cur, m, acc =>
      if cur.isEmpty then (m, acc) else (m + cur.length, acc ++ [cur])
  | r :: rs, cur, m, acc =>
      let cur2 := cur ++ [convertRow cols r]
      if batchSize ≤ cur2.length then
        transferLoop cols batchSize rs [] (m + cur2.length) (acc ++ [cur2])
      else
        transferLoop cols batchSize rs cur2 m acc

/-- Result of `migrate_data`: the returned pair `(migrated_rows,
avg_speed)` together with the list of batches bulk-inserted into the
target, in order. -/
structure DataOutcome where
  rows : Nat
  speed : Rat
  writes : List (List (List Value))
deriving DecidableEq, Repr

/-- `migrate_data(mysql_table, ch_table, batch_size)` (lines 295-427).
The initial `COUNT(*)` equals `t.rows.length`; an empty table returns
`(0, 0)` when `skip_empty_tables` is set, otherwise execution reaches
`total_batches = (total_rows + batch_size - 1) // batch_size` (a
`ZeroDivisionError` when `batch_size` is zero) and then the single-row
column probe, whose `fetchone()` yields `None` on an empty table so that
`first_row.keys()` raises `AttributeError`.  `elapsed` stands for the
wall-clock duration measured around the loop. -/
def migrateData (skipEmpty : Bool) (t : SourceTable) (batchSize : Nat)
    (elapsed : Rat) : Except String DataOutcome :=
  let totalRows := t.rows.length
  if totalRows == 0 && skipEmpty then .ok ⟨0, 0, []⟩
  else if batchSize == 0 then
    .error "ZeroDivisionError: integer division or modulo by zero"
  else
    match t.rows.head? with
    | none => .error "AttributeError: NoneType object has no attribute keys"
    | some _ =>
      let res := transferLoop t.columnNames batchSize t.rows [] 0 []
      .ok ⟨res.1, if 0 < elapsed then (res.1 : Rat) / elapsed else 0, res.2⟩

/-- Splitting a list into consecutive pieces of `b` elements (last piece
possibly shorter): the batch layout `transferLoop` produces. -/
def chunks {α : Type} (b : Nat) (l : List α) : List (List α) :=
  if l.isEmpty = true ∨ b = 0 then [] else l.take b :: chunks b (l.drop b)
termination_by l.length
decreasing_by
  rename_i h
  push_neg at h
  have h1 : l ≠ [] := by
    intro he
    exact absurd (by simp [he]) h.1
  have h2 : 0 < l.length := List.length_pos.mpr h1
  have h3 : 0 < b := Nat.pos_of_ne_zero h.2
  simp only [List.length_drop]
  omega

/-- `TYPE_MAPPING` from `MySQLToClickHouseMigration` (lines 89-117),
as an association list keyed by the MySQL base keyword. -/
def TYPE_MAPPING : List (String × String) :=
  [("tinyint", "Int8"),
   ("smallint", "Int16"),
   ("mediumint", "Int32"),
   ("int", "Int32"),
   ("integer", "Int32"),
   ("bigint", "Int64"),
   ("float", "Float32"),
   ("double", "Float64"),
   ("decimal", "Decimal"),
   ("char", "String"),
   ("varchar", "String"),
   ("text", "String"),
   ("tinytext", "String"),
   ("mediumtext", "String"),
   ("longtext", "String"),
   ("date", "Date"),
   ("datetime", "DateTime"),
   ("timestamp", "DateTime"),
   ("time", "String"),
   ("year", "Int16"),
   ("blob", "String"),
   ("tinyblob", "String"),
   ("mediumblob", "String"),
   ("longblob", "String"),
   ("json", "String"),
   ("enum", "String"),
   ("set", "String")]

/-- Python `str.split` with a single-character separator, on character
lists (structurally recursive, so proofs can evaluate it). -/
def splitOnChar (c : Char) : List Char → List (List Char)
  | [] => [[]]
  | x :: xs =>
    if x = c then [] :: splitOnChar c xs
    else
      match splitOnChar c xs with
      | [] => [[x]]
      | h :: t2 => (x :: h) :: t2

/-- Python `pat in s` on character lists: `pat` occurs as a contiguous
sublist. -/
def containsSub (pat : List Char) : List Char → Bool
  | [] => pat.isEmpty
  | x :: xs => pat.isPrefixOf (x :: xs) || containsSub pat xs

/-- Python `pat in s`. -/
def strContains (s pat : String) : Bool := containsSub pat.data s.data

/-- Python `str.lower()` (ASCII, which covers every key the mapping
uses). -/
def strToLower (s : String) : String := .mk (s.data.map Char.toLower)

/-- Python `s.split(c)` for a one-character separator. -/
def strSplitOn (s : String) (c : Char) : List String :=
  (splitOnChar c s.data).map String.mk

/-- Python `s.startswith(pre)`. -/
def strStartsWith (s pre : String) : Bool := pre.data.isPrefixOf s.data

/-- `mysql_type.split('(')[0].lower()` from
`convert_mysql_type_to_clickhouse`. -/
def baseKeyword (mysqlType : String) : String :=
  strToLower ((strSplitOn mysqlType '(').headD "")

/-- `convert_mysql_type_to_clickhouse(mysql_type, is_nullable)`
(lines 221-233): strip the parenthesized suffix, look the base keyword up
in `TYPE_MAPPING` with `'String'` as fallback, promote unsigned integer
kinds, propagate a decimal precision suffix verbatim, and wrap in
`Nullable(...)` when the column is nullable.  Total and deterministic by
construction. -/
def convertMysqlTypeToClickhouse (mysqlType : String) (isNullable : String) :
    String :=
  let baseType := baseKeyword mysqlType
  let isUnsigned := strContains (strToLower mysqlType) "unsigned"
  let chType0 := (TYPE_MAPPING.lookup baseType).getD "String"
  let chType1 :=
    if isUnsigned && strStartsWith chType0 "Int" then "U" ++ chType0 else chType0
  let chType2 :=
    if baseType == "decimal" && strContains mysqlType "(" then
      "Decimal(" ++
        ((strSplitOn ((strSplitOn mysqlType '(').getD 1 "") ')').headD "") ++ ")"
    else chType1
  if isNullable == "YES" then "Nullable(" ++ chType2 ++ ")" else chType2

/-- `verify_migration(mysql_table, ch_table)` (lines 429-449), given the
two `COUNT(*)` results: returns the boolean comparison outcome, together
with the absolute difference it logs on a mismatch (`none` when the
counts agree and nothing is logged). -/
def verifyMigration (mysqlCount chCount : Nat) : Bool × Option Nat :=
  if mysqlCount == chCount then (true, none)
  else (false, some (Nat.dist mysqlCount chCount))

deriving instance DecidableEq for Except

/-- Per-table terminal status, the `status` field of `table_result`. -/
inductive Status where
  | success : Status
  | failed : Status
deriving DecidableEq, Repr

/-- The `table_result` dict built by `migrate_table` (lines 463-472). -/
structure TableResult where
  mysql_table : String
  ch_table : String
  rows : Nat
  time_used : Rat
  speed : Rat
  status : Status
  verified : Bool
  error : Option String
deriving DecidableEq, Repr

/-- Outcomes of the externally-effectful steps `migrate_table` takes for
one table: schema introspection (`DESCRIBE`), primary-key query, target
drop, target create, the data transfer (returning `(rows, avg_speed)`),
and the verification count comparison.  `elapsed` is the wall-clock
duration `time.time() - start_time` observed at the point the table
finishes or fails. -/
structure TableEnv where
  structureResult : Except String Unit
  primaryKeyResult : Except String Unit
  dropResult : Except String Unit
  createResult : Except String Unit
  dataResult : Except String (Nat × Rat)
  verifyResult : Except String Bool
  elapsed : Rat
deriving DecidableEq, Repr

/-- The `except` clause of `migrate_table` (lines 507-518): record the
elapsed time and error text in the table result, then either return it
(`continue_on_error` set) or re-raise. -/
def tableFail (continueOnError : Bool) (elapsed : Rat) (r : TableResult)
    (e : String) : Except String TableResult :=
  if continueOnError then
    .ok { r with time_used := elapsed, error := some e }
  else .error e

/-- `migrate_table(mysql_table, ch_table, batch_size, verify)`
(lines 451-518), with the resolved `verify` flag, the
`drop_table_before_create` policy, and the step outcomes supplied by
`env`.  Follows the source's step order; on the success path `rows` and
`speed` are recorded before verification runs, so a verification
exception leaves them in place. -/
def migrateTable (env : TableEnv) (continueOnError dropBefore verify : Bool)
    (mysqlTable chTable : String) : Except String TableResult :=
  let base : TableResult :=
    ⟨mysqlTable, chTable, 0, 0, 0, .failed, false, none⟩
  match env.structureResult with
  | .error e => tableFail continueOnError env.elapsed base e
  | .ok _ =>
  match env.primaryKeyResult with
  | .error e => tableFail continueOnError env.elapsed base e
  | .ok _ =>
  match (if dropBefore then env.dropResult else .ok ()) with
  | .error e => tableFail continueOnError env.elapsed base e
  | .ok _ =>
  match env.createResult with
  | .error e => tableFail continueOnError env.elapsed base e
  | .ok _ =>
  match env.dataResult with
  | .error e => tableFail continueOnError env.elapsed base e
  | .ok (rows, speed) =>
  let r1 := { base with rows := rows, speed := speed }
  match (if verify then env.verifyResult else .ok false) with
  | .error e => tableFail continueOnError env.elapsed r1 e
  | .ok vb =>
  let r2 := if verify then { r1 with verified := vb } else r1
  .ok { r2 with time_used := env.elapsed, status := .success }

/-- Feishu notification events sent by `migrate_all_tables`: run start,
run success (carrying the aggregate counters of `migration_stats`), and
per-raise failure (carrying the failing table name, the error text, and
the progress-so-far counts; the traceback string the source also attaches
is omitted).  -/
inductive NotifyEvent where
  | start : NotifyEvent
  | success : Nat → Nat → Nat → Nat → NotifyEvent
  | failure : String → String → Nat → Nat → NotifyEvent
deriving DecidableEq, Repr

/-- The `migration_stats` dict (lines 134-141 and 583-589). -/
structure MigrationStats where
  total_tables : Nat
  success_tables : Nat
  failed_tables : Nat
  total_rows : Nat
  total_time : Rat
  avg_speed : Rat
  table_details : List TableResult
deriving DecidableEq, Repr

/-- State threaded through a run of `migrate_all_tables`: the mutable
`migration_stats`, the notification events sent so far, and — when the
loop re-raised a per-table exception — the propagated error, after which
nothing further executes. -/
structure RunState where
  stats : MigrationStats
  events : List NotifyEvent
  aborted : Option String
deriving DecidableEq, Repr

/-- One entry of `migration.tables` in the configuration: the two table
names (absent when the key is missing), an optional per-table `verify`
override, and the external-step outcomes for this table. -/
structure TableConfig where
  mysql_table : Option String
  ch_table : Option String
  verify : Option Bool
  env : TableEnv
deriving DecidableEq, Repr

/-- Python truthiness of an optional string: `None` and `''` are falsy,
as in `if not mysql_table or not ch_table`. -/
def pythonTruthy : Option String → Option String
  | some s => if s.isEmpty then none else some s
  | none => none

/-- The fresh `migration_stats` of `__init__`. -/
def initStats : MigrationStats := ⟨0, 0, 0, 0, 0, 0, []⟩

/-- One iteration of the table loop in `migrate_all_tables`
(lines 541-581), at 1-based index `idx`: skip invalid entries; otherwise
run `migrate_table` and either tally the returned result, or — when it
raises — count the failure, send the failure notification, and re-raise
unless `continue_on_error` is set.  A state whose `aborted` field is set
is returned unchanged: the loop is no longer executing. -/
def processEntry (coe dropBefore dv : Bool) (totalTables idx : Nat)
    (cfg : TableConfig) (st : RunState) : RunState :=
  if st.aborted.isSome then st
  else
    match pythonTruthy cfg.mysql_table with
    | none => st
    | some mt =>
    match pythonTruthy cfg.ch_table with
    | none => st
    | some ct =>
      match migrateTable cfg.env coe dropBefore (cfg.verify.getD dv) mt ct with
      | .ok r =>
        { st with stats := { st.stats with
            success_tables :=
              st.stats.success_tables + (if r.status = .success then 1 else 0),
            failed_tables :=
              st.stats.failed_tables + (if r.status = .success then 0 else 1),
            total_rows := st.stats.total_rows + r.rows,
            table_details := st.stats.table_details ++ [r] } }
      | .error e =>
        let st2 : RunState :=
          { st with
            stats :=
              { st.stats with failed_tables := st.stats.failed_tables + 1 },
            events := st.events ++ [.failure mt e totalTables (idx - 1)] }
        if coe then st2 else { st2 with aborted := some e }

/-- The table loop of `migrate_all_tables`, processing the remaining
entries from 1-based index `idx`. -/
def runTables (coe dropBefore dv : Bool) (total : Nat) :
    Nat → List TableConfig → RunState → RunState
  | _, [], st => st
  | idx, cfg :: rest, st =>
      runTables coe dropBefore dv total (idx + 1) rest
        (processEntry coe dropBefore dv total idx cfg st)

/-- Run state right after `migration_stats['total_tables']` is set and
the start notification is sent (lines 527-537). -/
def startState (tables : List TableConfig) : RunState :=
  ⟨{ initStats with total_tables := tables.length }, [.start], none⟩

/-- The post-loop block of `migrate_all_tables` (lines 583-596), which
only runs when no exception propagated out of the loop: record the
overall time, compute the average speed, and send the success
notification exactly when no table failed. -/
def finalizeRun (stN : RunState) (overallTime : Rat) : RunState :=
  match stN.aborted with
  | some _ => stN
  | none =>
    let s := stN.stats
    let avg : Rat :=
      if 0 < overallTime ∧ 0 < s.total_rows then (s.total_rows : Rat) / overallTime
      else 0
    let s2 := { s with total_time := overallTime, avg_speed := avg }
    let ev2 :=
      if s2.failed_tables = 0 then
        stN.events ++
          [.success s2.total_tables s2.success_tables s2.failed_tables
            s2.total_rows]
      else stN.events
    ⟨s2, ev2, none⟩

/-- `migrate_all_tables()` (lines 520-596): empty table list returns at
once; otherwise set `total_tables`, notify start, loop over the entries,
and finalize.  `overallTime` stands for the measured overall duration. -/
def migrateAllTables (coe dropBefore dv : Bool) (tables : List TableConfig)
    (overallTime : Rat) : RunState :=
  if tables.isEmpty then ⟨initStats, [], none⟩
  else
    finalizeRun
      (runTables coe dropBefore dv tables.length 1 tables (startState tables))
      overallTime

/-- Number of failure notifications among the sent events. -/
def countFailureEvents (evs : List NotifyEvent) : Nat :=
  (evs.filter fun e =>
    match e with
    | .failure _ _ _ _ => true
    | _ => false).length

/-- A mapping entry with both table names present and non-empty — the
entries the loop actually attempts. -/
def isValidMapping (cfg : TableConfig) : Bool :=
  (pythonTruthy cfg.mysql_table).isSome && (pythonTruthy cfg.ch_table).isSome

/-- Number of valid mapping entries in a configuration list. -/
def countValid (l : List TableConfig) : Nat :=
  (l.filter isValidMapping).length

/-- A step environment in which every step succeeds: transfer moves
5 rows at speed 2, verification passes, one second elapsed. -/
def envAllOk : TableEnv :=
  ⟨.ok (), .ok (), .ok (), .ok (), .ok (5, 2), .ok true, 1⟩

/-- A step environment whose schema introspection raises. -/
def envBadStructure : TableEnv :=
  ⟨.error "boom", .ok (), .ok (), .ok (), .ok (5, 2), .ok true, 1⟩

/-- A step environment whose verification step raises after a transfer
of 7 rows at speed 3. -/
def envBadVerify : TableEnv :=
  ⟨.ok (), .ok (), .ok (), .ok (), .ok (7, 3), .error "vfail", 1⟩

/-- A step environment in which every step succeeds but the count
verification reports a mismatch (returns false) after 9 rows moved at
speed 4. -/
def envVerifyFalse : TableEnv :=
  ⟨.ok (), .ok (), .ok (), .ok (), .ok (9, 4), .ok false, 1⟩

theorem transferLoop_rows (cols : List String) (b : Nat) :
    ∀ (rows cur : List (List Value)) (m : Nat) (acc : List (List (List Value))),
      (transferLoop cols b rows cur m acc).1 = m + cur.length + rows.length := by
  intro rows
  induction rows with
  | nil =>
    intro cur m acc
    by_cases h : cur.isEmpty
    · simp [transferLoop, h, List.isEmpty_iff.mp h]
    · simp [transferLoop, h]
  | cons r rs ih =>
    intro cur m acc
    by_cases h : b ≤ (cur ++ [convertRow cols r]).length
    · simp only [transferLoop, if_pos h, ih]
      simp
      omega
    · simp only [transferLoop, if_neg h, ih]
      simp
      omega

theorem chunks_nil {α : Type} (b : Nat) : chunks b ([] : List α) = [] := by
  rw [chunks]
  simp

theorem chunks_cons {α : Type} (b : Nat) (l : List α) (h1 : l ≠ []) (h2 : b ≠ 0) :
    chunks b l = l.take b :: chunks b (l.drop b) := by
  rw [chunks]
  simp [h1, h2]

theorem transferLoop_writes (cols : List String) (b : Nat) (hb : 0 < b) :
    ∀ (rows cur : List (List Value)) (m : Nat) (acc : List (List (List Value))),
      cur.length < b →
      (transferLoop cols b rows cur m acc).2 =
        acc ++ chunks b (cur ++ rows.map (convertRow cols)) := by
  intro rows
  induction rows with
  | nil =>
    intro cur m acc hcur
    by_cases h : cur.isEmpty
    · have : cur = [] := List.isEmpty_iff.mp h
      simp [transferLoop, h, this, chunks_nil]
    · have hne : cur ≠ [] := by
        intro he
        simp [he] at h
      rw [chunks_cons b _ (by simpa using hne) (Nat.pos_iff_ne_zero.mp hb)]
      rw [List.take_of_length_le (by simpa using Nat.le_of_lt hcur)]
      rw [List.drop_eq_nil_of_le (by simpa using Nat.le_of_lt hcur)]
      simp [transferLoop, h, chunks_nil]
  | cons r rs ih =>
    intro cur m acc hcur
    by_cases h : b ≤ (cur ++ [convertRow cols r]).length
    · have hlen : (cur ++ [convertRow cols r]).length = b := by
        simp at h ⊢
        omega
      simp only [transferLoop, if_pos h]
      rw [ih [] (m + (cur ++ [convertRow cols r]).length) _ hb]
      have hmap : cur ++ (r :: rs).map (convertRow cols) =
          (cur ++ [convertRow cols r]) ++ rs.map (convertRow cols) := by
        simp
      rw [hmap]
      have hne : cur ++ [convertRow cols r] ++ List.map (convertRow cols) rs ≠ [] := by
        intro he
        have := congrArg List.length he
        simp [List.length_append, hlen] at this
      rw [chunks_cons b _ hne (Nat.pos_iff_ne_zero.mp hb)]
      have ht : (cur ++ [convertRow cols r] ++ List.map (convertRow cols) rs).take b
          = cur ++ [convertRow cols r] := by
        rw [← hlen]
        exact List.take_left _ _
      have hd : (cur ++ [convertRow cols r] ++ List.map (convertRow cols) rs).drop b
          = List.map (convertRow cols) rs := by
        rw [← hlen]
        exact List.drop_left _ _
      rw [ht, hd]
      simp
    · simp only [transferLoop, if_neg h]
      rw [ih _ m acc (by simpa using Nat.lt_of_not_le h)]
      have hmap : cur ++ (r :: rs).map (convertRow cols) =
          (cur ++ [convertRow cols r]) ++ rs.map (convertRow cols) := by
        simp
      rw [hmap]

theorem chunksSizes25000 {α : Type} (l : List α) (h : l.length = 25000) :
    (chunks 10000 l).map List.length = [10000, 10000, 5000] := by
  have h1 : l ≠ [] := by
    intro he
    simp [he] at h
  rw [chunks_cons 10000 l h1 (by norm_num)]
  have hd1 : (l.drop 10000).length = 15000 := by simp [List.length_drop, h]
  have h2 : l.drop 10000 ≠ [] := by
    intro he
    simp [he] at hd1
  rw [chunks_cons 10000 _ h2 (by norm_num)]
  have hd2 : ((l.drop 10000).drop 10000).length = 5000 := by
    simp [List.length_drop, h]
  have h3 : (l.drop 10000).drop 10000 ≠ [] := by
    intro he
    simp [he] at hd2
  rw [chunks_cons 10000 _ h3 (by norm_num)]
  have hd3 : ((l.drop 10000).drop 10000).drop 10000 = [] := by
    apply List.drop_eq_nil_of_le
    omega
  rw [hd3, chunks_nil]
  simp [List.length_take, h, hd1, hd2]

/-- C2: an empty source table makes `migrate_data` return `(0, 0)` with
zero target writes when `skip_empty_tables` is enabled; when it is
disabled, the code does NOT return `(0, 0)`: it proceeds to the
single-row column probe, whose `fetchone()` yields `None`, and raises
(`ZeroDivisionError` first in the degenerate `batch_size = 0` case).
This settles the claim's "for both values of the skip-empty-tables
option" against the code. -/
theorem migrateData_empty_table (cols : List String) (bs : Nat) (e : Rat) :
    migrateData true ⟨cols, []⟩ bs e = .ok ⟨0, 0, []⟩ ∧
    migrateData false ⟨cols, []⟩ bs e =
      .error (if bs = 0 then "ZeroDivisionError: integer division or modulo by zero"
              else "AttributeError: NoneType object has no attribute keys") := by
  constructor
  · rfl
  · by_cases hbs : bs = 0 <;> simp [migrateData, hbs]

/-- C4: on any source table of exactly 25000 rows with `batch_size =
10000`, the transfer returns `rows_transferred = 25000` and issues
exactly three bulk writes, of 10000, 10000 and 5000 rows. -/
theorem migrateData_three_writes (t : SourceTable) (skip : Bool) (e : Rat)
    (h : t.rows.length = 25000) :
    (migrateData skip t 10000 e).map (fun o => (o.rows, o.writes.map List.length)) =
      Except.ok (25000, [10000, 10000, 5000]) := by
  rcases hr : t.rows with _ | ⟨r0, rs⟩
  · simp [hr] at h
  · unfold migrateData
    rw [hr] at h
    simp only [hr, h]
    norm_num
    simp only [Except.map, Except.ok.injEq, Prod.mk.injEq]
    constructor
    · rw [transferLoop_rows]
      simpa using h
    · rw [transferLoop_writes t.columnNames 10000 (by norm_num) _ [] 0 [] (by simp)]
      simp only [List.nil_append]
      exact chunksSizes25000 _ (by simpa using h)

/-- Witness for C4: a concrete table of 25000 rows. -/
theorem migrateData_three_writes_witness :
    (List.replicate 25000 ([] : List Value)).length = 25000 ∧
    (migrateData true ⟨["c"], List.replicate 25000 []⟩ 10000 1).map
        (fun o => (o.rows, o.writes.map List.length)) =
      Except.ok (25000, [10000, 10000, 5000]) :=
  ⟨by rw [List.length_replicate],
   migrateData_three_writes ⟨["c"], List.replicate 25000 []⟩ true 1
     (by rw [List.length_replicate])⟩

theorem convertRow_positional (cols : List String) (row : List Value) :
    (convertRow cols row).length = cols.length ∧
    ∀ i, i < cols.length →
      (convertRow cols row).getD i .null = convertValue (row.getD i .null) := by
  constructor
  · simp [convertRow]
  · intro i hi
    simp [convertRow, List.getD_eq_getElem?_getD, List.getElem?_map,
      List.getElem?_range, hi]

theorem transferLoop_mem (cols : List String) (b : Nat) :
    ∀ (rows cur : List (List Value)) (m : Nat) (acc : List (List (List Value)))
      (batch : List (List Value)) (r : List Value),
      batch ∈ (transferLoop cols b rows cur m acc).2 → r ∈ batch →
      (∃ b0 ∈ acc, r ∈ b0) ∨ r ∈ cur ∨ ∃ src ∈ rows, r = convertRow cols src := by
  intro rows
  induction rows with
  | nil =>
    intro cur m acc batch r hb hr
    by_cases h : cur.isEmpty
    · simp [transferLoop, h] at hb
      exact Or.inl ⟨batch, hb, hr⟩
    · simp [transferLoop, h] at hb
      rcases hb with hb | hb
      · exact Or.inl ⟨batch, hb, hr⟩
      · subst hb
        exact Or.inr (Or.inl hr)
  | cons x xs ih =>
    intro cur m acc batch r hb hr
    by_cases h : b ≤ (cur ++ [convertRow cols x]).length
    · simp only [transferLoop, if_pos h] at hb
      rcases ih [] _ _ batch r hb hr with ⟨b0, hb0, hrb0⟩ | hcur | ⟨src, hsrc, hconv⟩
      · rcases List.mem_append.mp hb0 with h1 | h1
        · exact Or.inl ⟨b0, h1, hrb0⟩
        · simp only [List.mem_singleton] at h1
          subst h1
          rcases List.mem_append.mp hrb0 with h2 | h2
          · exact Or.inr (Or.inl h2)
          · simp only [List.mem_singleton] at h2
            exact Or.inr (Or.inr ⟨x, by simp, h2⟩)
      · simp at hcur
      · exact Or.inr (Or.inr ⟨src, by simp [hsrc], hconv⟩)
    · simp only [transferLoop, if_neg h] at hb
      rcases ih _ _ _ batch r hb hr with h1 | h1 | ⟨src, hsrc, hconv⟩
      · exact Or.inl h1
      · rcases List.mem_append.mp h1 with h2 | h2
        · exact Or.inr (Or.inl h2)
        · simp only [List.mem_singleton] at h2
          exact Or.inr (Or.inr ⟨x, by simp, h2⟩)
      · exact Or.inr (Or.inr ⟨src, by simp [hsrc], hconv⟩)

/-- C9 counterexample: a `date` value read from the source is held in
the written batch unchanged — a temporal value that is NOT normalized to
a string representation, contradicting the claim that every date-,
time-, or datetime-kind value is normalized. -/
theorem migrateData_date_not_normalized :
    (migrateData true ⟨["d"], [[Value.dateV 2024 5 17]]⟩ 10 1).map
        (fun o => o.writes) = Except.ok [[[Value.dateV 2024 5 17]]] ∧
    isTemporalValue (Value.dateV 2024 5 17) = true ∧
    isStringValue (Value.dateV 2024 5 17) = false := by
  decide

/-- C9 amended: every row held in a written batch is the positional
conversion of some source row; the conversion turns datetime-kind values
into their fixed `%Y-%m-%d %H:%M:%S` string form and leaves every other
value — including date- and time-kind values — unchanged. -/
theorem migrateData_positional_conversion (skip : Bool) (t : SourceTable)
    (bs : Nat) (e : Rat) (out : DataOutcome)
    (hok : migrateData skip t bs e = .ok out) :
    (∀ batch ∈ out.writes, ∀ r ∈ batch,
        ∃ src ∈ t.rows, r = convertRow t.columnNames src) ∧
    (∀ y mo d h mi s, convertValue (.datetimeV y mo d h mi s) =
        .strV (formatDatetime y mo d h mi s)) ∧
    (∀ v, isDatetimeValue v = false → convertValue v = v) ∧
    (∀ cols row, (convertRow cols row).length = cols.length ∧
      ∀ i, i < cols.length →
        (convertRow cols row).getD i .null = convertValue (row.getD i .null)) := by
  refine ⟨?_, fun y mo d h mi s => rfl, ?_,
    fun cols row => convertRow_positional cols row⟩
  · intro batch hbatch r hr
    unfold migrateData at hok
    by_cases h0 : (t.rows.length == 0 && skip) = true
    · rw [if_pos h0] at hok
      simp only [Except.ok.injEq] at hok
      rw [← hok] at hbatch
      simp at hbatch
    · rw [if_neg h0] at hok
      by_cases hbs : (bs == 0) = true
      · rw [if_pos hbs] at hok
        simp at hok
      · rw [if_neg hbs] at hok
        rcases hhead : t.rows.head? with _ | r0
        · rw [hhead] at hok
          simp at hok
        · rw [hhead] at hok
          simp only [Except.ok.injEq] at hok
          rw [← hok] at hbatch
          rcases transferLoop_mem t.columnNames bs t.rows [] 0 [] batch r hbatch hr
            with ⟨b0, hb0, _⟩ | hcur | hsrc
          · simp at hb0
          · simp at hcur
          · exact hsrc
  · intro v hv
    cases v <;> simp_all [convertValue, isDatetimeValue]

/-- Witness for C9 amended: a one-row table holding a datetime value,
which is written as its formatted string. -/
theorem migrateData_positional_conversion_witness :
    (∀ batch ∈ (⟨1, 0, [[[Value.strV "2024-05-17 01:02:03"]]]⟩ : DataOutcome).writes,
      ∀ r ∈ batch,
        ∃ src ∈ (⟨["d"], [[Value.datetimeV 2024 5 17 1 2 3]]⟩ : SourceTable).rows,
          r = convertRow (⟨["d"], [[Value.datetimeV 2024 5 17 1 2 3]]⟩ : SourceTable).columnNames src) ∧
    (∀ y mo d h mi s, convertValue (.datetimeV y mo d h mi s) =
        .strV (formatDatetime y mo d h mi s)) ∧
    (∀ v, isDatetimeValue v = false → convertValue v = v) ∧
    (∀ cols row, (convertRow cols row).length = cols.length ∧
      ∀ i, i < cols.length →
        (convertRow cols row).getD i .null = convertValue (row.getD i .null)) :=
  migrateData_positional_conversion true ⟨["d"], [[Value.datetimeV 2024 5 17 1 2 3]]⟩
    10 0 ⟨1, 0, [[[Value.strV "2024-05-17 01:02:03"]]]⟩ (by decide)

/-- C6: the verification comparison returns true exactly when the two
row counts are equal, and on a mismatch it returns false (raising
nothing — the function is total) while logging the absolute difference
and attempting no reconciliation (the comparison has no other output). -/
theorem verifyMigration_iff_equal (m c : Nat) :
    ((verifyMigration m c).1 = true ↔ m = c) ∧
    (verifyMigration m c).2 = (if m = c then none else some (Nat.dist m c)) := by
  by_cases h : m = c <;> simp [verifyMigration, h]

/-- Witness for C6 at the spec's example counts 100 and 97. -/
theorem verifyMigration_iff_equal_witness :
    ((verifyMigration 100 97).1 = true ↔ 100 = 97) ∧
    (verifyMigration 100 97).2 = (if 100 = 97 then none else some (Nat.dist 100 97)) :=
  verifyMigration_iff_equal 100 97

theorem string_of_length_zero (s : String) (h : s.length = 0) : s = "" := by
  cases s with
  | mk data =>
    cases data with
    | nil => rfl
    | cons c cs => simp [String.length] at h

theorem str_append_ne_empty (s1 s2 : String) (h : s1 ≠ "") : s1 ++ s2 ≠ "" := by
  intro he
  apply h
  have hlen := congrArg String.length he
  rw [String.length_append] at hlen
  have h0 : ("" : String).length = 0 := rfl
  rw [h0] at hlen
  exact string_of_length_zero s1 (by omega)

theorem lookup_ne_empty (l : List (String × String))
    (hl : ∀ p ∈ l, p.2 ≠ "") : ∀ k v : String, l.lookup k = some v → v ≠ "" := by
  induction l with
  | nil =>
    intro k v h
    simp [List.lookup] at h
  | cons a l ih =>
    obtain ⟨k1, v1⟩ := a
    intro k v h
    simp only [List.lookup] at h
    cases hk : (k == k1) with
    | true =>
      rw [hk] at h
      have h2 : some v1 = some v := h
      injection h2 with hv
      rw [← hv]
      exact hl (k1, v1) (by simp)
    | false =>
      rw [hk] at h
      exact ih (fun p hp => hl p (by simp [hp])) k v h

/-- C8: the type mapping is total — it yields a non-empty target type
string on every input (and, being a function, is deterministic) — and a
base keyword absent from `TYPE_MAPPING` falls back to `String`, wrapped
in `Nullable(...)` exactly when the column is nullable. -/
theorem convertType_total_and_fallback (t n : String) :
    convertMysqlTypeToClickhouse t n ≠ "" ∧
    (TYPE_MAPPING.lookup (baseKeyword t) = none →
      convertMysqlTypeToClickhouse t n =
        if n == "YES" then "Nullable(String)" else "String") := by
  constructor
  · have hch0 : ((TYPE_MAPPING.lookup (baseKeyword t)).getD "String") ≠ "" := by
      rcases hl : TYPE_MAPPING.lookup (baseKeyword t) with _ | v
      · simp
      · simpa using lookup_ne_empty TYPE_MAPPING (by decide) (baseKeyword t) v hl
    simp only [convertMysqlTypeToClickhouse]
    by_cases hn : (n == "YES") = true
    · rw [if_pos hn]
      exact str_append_ne_empty _ _ (str_append_ne_empty "Nullable(" _ (by decide))
    · rw [if_neg hn]
      split
      · exact str_append_ne_empty _ _ (str_append_ne_empty "Decimal(" _ (by decide))
      · split
        · exact str_append_ne_empty "U" _ (by decide)
        · exact hch0
  · intro hnone
    have hbd : (baseKeyword t == "decimal") = false := by
      rw [beq_eq_false_iff_ne]
      intro hb
      rw [hb] at hnone
      exact absurd hnone (by decide)
    simp only [convertMysqlTypeToClickhouse]
    rw [hnone]
    simp only [Option.getD_none]
    rw [show (strStartsWith "String" "Int") = false from by decide]
    simp [hbd]

/-- Witness for C8: the exotic base keyword `geometry` is absent from
the mapping and falls back to `String`. -/
theorem convertType_total_and_fallback_witness :
    convertMysqlTypeToClickhouse "geometry" "NO" ≠ "" ∧
    (TYPE_MAPPING.lookup (baseKeyword "geometry") = none →
      convertMysqlTypeToClickhouse "geometry" "NO" =
        if ("NO" : String) == "YES" then "Nullable(String)" else "String") :=
  convertType_total_and_fallback "geometry" "NO"

theorem migrateTable_coe_ok (env : TableEnv) (db v : Bool) (mt ct : String) :
    ∃ r, migrateTable env true db v mt ct = Except.ok r := by
  unfold migrateTable tableFail
  cases env.structureResult <;> cases env.primaryKeyResult <;> cases db <;>
    cases env.dropResult <;> cases env.createResult <;>
    rcases env.dataResult with e | ⟨rows, speed⟩ <;> cases v <;>
    cases env.verifyResult <;> simp

theorem processEntry_total_tables (coe db dv : Bool) (total idx : Nat)
    (cfg : TableConfig) (st : RunState) :
    (processEntry coe db dv total idx cfg st).stats.total_tables =
      st.stats.total_tables := by
  unfold processEntry
  repeat' split
  all_goals rfl

theorem processEntry_counts_le (coe db dv : Bool) (total idx : Nat)
    (cfg : TableConfig) (st : RunState) :
    (processEntry coe db dv total idx cfg st).stats.success_tables +
      (processEntry coe db dv total idx cfg st).stats.failed_tables ≤
      st.stats.success_tables + st.stats.failed_tables + 1 := by
  unfold processEntry
  repeat' split
  all_goals simp
  all_goals omega

theorem processEntry_aborted_mono (coe db dv : Bool) (total idx : Nat)
    (cfg : TableConfig) (st : RunState) (h : st.aborted.isSome) :
    processEntry coe db dv total idx cfg st = st := by
  unfold processEntry
  rw [if_pos h]

theorem runTables_of_aborted (coe db dv : Bool) (total : Nat) :
    ∀ (l : List TableConfig) (idx : Nat) (st : RunState),
      st.aborted.isSome → runTables coe db dv total idx l st = st := by
  intro l
  induction l with
  | nil =>
    intro idx st h
    rfl
  | cons cfg rest ih =>
    intro idx st h
    rw [runTables, processEntry_aborted_mono coe db dv total idx cfg st h]
    exact ih _ st h

theorem runTables_total_tables (coe db dv : Bool) (total : Nat) :
    ∀ (l : List TableConfig) (idx : Nat) (st : RunState),
      (runTables coe db dv total idx l st).stats.total_tables =
        st.stats.total_tables := by
  intro l
  induction l with
  | nil =>
    intro idx st
    rfl
  | cons cfg rest ih =>
    intro idx st
    rw [runTables, ih, processEntry_total_tables]

theorem runTables_counts_le (coe db dv : Bool) (total : Nat) :
    ∀ (l : List TableConfig) (idx : Nat) (st : RunState),
      (runTables coe db dv total idx l st).stats.success_tables +
        (runTables coe db dv total idx l st).stats.failed_tables ≤
        st.stats.success_tables + st.stats.failed_tables + l.length := by
  intro l
  induction l with
  | nil =>
    intro idx st
    simp [runTables]
  | cons cfg rest ih =>
    intro idx st
    rw [runTables]
    have h1 := ih (idx + 1) (processEntry coe db dv total idx cfg st)
    have h2 := processEntry_counts_le coe db dv total idx cfg st
    simp only [List.length_cons]
    omega

theorem processEntry_true_spec (db dv : Bool) (total idx : Nat)
    (cfg : TableConfig) (st : RunState) (hst : st.aborted = none) :
    (processEntry true db dv total idx cfg st).aborted = none ∧
    (processEntry true db dv total idx cfg st).events = st.events ∧
    (processEntry true db dv total idx cfg st).stats.success_tables +
      (processEntry true db dv total idx cfg st).stats.failed_tables =
      st.stats.success_tables + st.stats.failed_tables +
        (if isValidMapping cfg then 1 else 0) := by
  unfold processEntry
  rw [if_neg (by simp [hst])]
  split
  · rename_i hmt
    refine ⟨hst, rfl, ?_⟩
    simp [isValidMapping, hmt]
  · rename_i mt hmt
    split
    · rename_i hct
      refine ⟨hst, rfl, ?_⟩
      simp [isValidMapping, hmt, hct]
    · rename_i ct hct
      split
      · rename_i r hmr
        refine ⟨hst, rfl, ?_⟩
        simp only [isValidMapping, hmt, hct, Option.isSome_some, Bool.and_self, if_true]
        cases hr : r.status <;> simp [hr] <;> omega
      · rename_i e hmr
        obtain ⟨r, hr⟩ := migrateTable_coe_ok cfg.env db (cfg.verify.getD dv) mt ct
        rw [hr] at hmr
        cases hmr

theorem processEntry_false_spec (db dv : Bool) (total idx : Nat)
    (cfg : TableConfig) (st : RunState) (hst : st.aborted = none) :
    ((processEntry false db dv total idx cfg st).aborted = none ∧
      (processEntry false db dv total idx cfg st).events = st.events ∧
      (processEntry false db dv total idx cfg st).stats.success_tables +
        (processEntry false db dv total idx cfg st).stats.failed_tables =
        st.stats.success_tables + st.stats.failed_tables +
          (if isValidMapping cfg then 1 else 0)) ∨
    ((processEntry false db dv total idx cfg st).aborted.isSome = true ∧
      isValidMapping cfg = true ∧
      countFailureEvents (processEntry false db dv total idx cfg st).events =
        countFailureEvents st.events + 1 ∧
      (processEntry false db dv total idx cfg st).stats.success_tables +
        (processEntry false db dv total idx cfg st).stats.failed_tables =
        st.stats.success_tables + st.stats.failed_tables + 1) := by
  unfold processEntry
  rw [if_neg (by simp [hst])]
  split
  · rename_i hmt
    refine Or.inl ⟨hst, rfl, ?_⟩
    simp [isValidMapping, hmt]
  · rename_i mt hmt
    split
    · rename_i hct
      refine Or.inl ⟨hst, rfl, ?_⟩
      simp [isValidMapping, hmt, hct]
    · rename_i ct hct
      split
      · rename_i r hmr
        refine Or.inl ⟨hst, rfl, ?_⟩
        simp only [isValidMapping, hmt, hct, Option.isSome_some, Bool.and_self, if_true]
        cases hr : r.status <;> simp [hr] <;> omega
      · rename_i e hmr
        refine Or.inr ⟨rfl, by simp [isValidMapping, hmt, hct], ?_, by simp; omega⟩
        simp [countFailureEvents, List.filter_append]

theorem countValid_cons (cfg : TableConfig) (l : List TableConfig) :
    countValid (cfg :: l) =
      (if isValidMapping cfg then 1 else 0) + countValid l := by
  simp only [countValid, List.filter_cons]
  cases hv : isValidMapping cfg
  all_goals simp [hv]
  all_goals omega

theorem runTables_true_spec (db dv : Bool) (total : Nat) :
    ∀ (l : List TableConfig) (idx : Nat) (st : RunState), st.aborted = none →
      (runTables true db dv total idx l st).aborted = none ∧
      (runTables true db dv total idx l st).events = st.events ∧
      (runTables true db dv total idx l st).stats.success_tables +
        (runTables true db dv total idx l st).stats.failed_tables =
        st.stats.success_tables + st.stats.failed_tables + countValid l := by
  intro l
  induction l with
  | nil =>
    intro idx st h
    exact ⟨h, rfl, by simp [countValid, runTables]⟩
  | cons cfg rest ih =>
    intro idx st h
    rw [runTables]
    obtain ⟨h1, h2, h3⟩ := processEntry_true_spec db dv total idx cfg st h
    obtain ⟨g1, g2, g3⟩ := ih (idx + 1) _ h1
    refine ⟨g1, by rw [g2, h2], ?_⟩
    rw [g3, h3, countValid_cons]
    omega

theorem runTables_false_spec (db dv : Bool) (total : Nat) :
    ∀ (l : List TableConfig) (idx : Nat) (st : RunState),
      st.aborted = none → countFailureEvents st.events = 0 →
      ((runTables false db dv total idx l st).aborted = none ∧
        countFailureEvents (runTables false db dv total idx l st).events = 0 ∧
        (runTables false db dv total idx l st).stats.success_tables +
          (runTables false db dv total idx l st).stats.failed_tables =
          st.stats.success_tables + st.stats.failed_tables + countValid l) ∨
      ((runTables false db dv total idx l st).aborted.isSome = true ∧
        countFailureEvents (runTables false db dv total idx l st).events = 1) := by
  intro l
  induction l with
  | nil =>
    intro idx st h hc
    exact Or.inl ⟨h, hc, by simp [countValid, runTables]⟩
  | cons cfg rest ih =>
    intro idx st h hc
    rw [runTables]
    rcases processEntry_false_spec db dv total idx cfg st h with
      ⟨h1, h2, h3⟩ | ⟨h1, h2, h3, h4⟩
    · rcases ih (idx + 1) _ h1 (by rw [h2]; exact hc) with ⟨g1, g2, g3⟩ | ⟨g1, g2⟩
      · refine Or.inl ⟨g1, g2, ?_⟩
        rw [g3, h3, countValid_cons]
        omega
      · exact Or.inr ⟨g1, g2⟩
    · rw [runTables_of_aborted false db dv total rest (idx + 1) _ h1]
      exact Or.inr ⟨h1, by omega⟩

theorem finalizeRun_fields (s : RunState) (t : Rat) :
    (finalizeRun s t).aborted = s.aborted ∧
    (finalizeRun s t).stats.success_tables = s.stats.success_tables ∧
    (finalizeRun s t).stats.failed_tables = s.stats.failed_tables ∧
    (finalizeRun s t).stats.total_tables = s.stats.total_tables ∧
    (finalizeRun s t).stats.table_details = s.stats.table_details ∧
    countFailureEvents (finalizeRun s t).events = countFailureEvents s.events := by
  unfold finalizeRun
  split
  · exact ⟨rfl, rfl, rfl, rfl, rfl, rfl⟩
  · rename_i he
    refine ⟨by rw [he], rfl, rfl, rfl, rfl, ?_⟩
    by_cases hf : s.stats.failed_tables = 0
    · simp [hf, countFailureEvents, List.filter_append]
    · simp [hf, countFailureEvents]

theorem pythonTruthy_some (s : String) (h : s ≠ "") :
    pythonTruthy (some s) = some s := by
  have he : s.isEmpty = false := by
    rw [Bool.eq_false_iff]
    intro he2
    exact h ((String.isEmpty_iff s).mp he2)
  simp [pythonTruthy, he]

/-- C1 counterexample: with continue-on-error enabled, a run whose only
table fails records the failure (`failed_tables = 1`) but emits NO
failure notification — the notification does not fire once per failing
table. -/
theorem failureNotification_counterexample :
    (migrateAllTables true true true
        [⟨some "t", some "u", none, envBadStructure⟩] 1).stats.failed_tables = 1 ∧
    countFailureEvents (migrateAllTables true true true
        [⟨some "t", some "u", none, envBadStructure⟩] 1).events = 0 := by
  decide

/-- C1 amended: the failure notification is emitted only when the
per-table procedure raises, which happens exactly when continue-on-error
is disabled; then it fires once (for the first failing table, whose
name, error text, and progress counts the event carries by construction)
and the run aborts, so a run emits at most one failure notification.
With continue-on-error enabled, `migrate_table` swallows per-table
failures and no failure notification is ever emitted. -/
theorem failureNotification_only_without_continue (coe db dv : Bool)
    (tables : List TableConfig) (ot : Rat) :
    countFailureEvents (migrateAllTables coe db dv tables ot).events =
      (if coe then 0
       else if (migrateAllTables coe db dv tables ot).aborted.isSome then 1
       else 0) := by
  unfold migrateAllTables
  by_cases he : tables.isEmpty
  · rw [if_pos he]
    cases coe <;> simp [countFailureEvents]
  · rw [if_neg he]
    have hf := finalizeRun_fields
      (runTables coe db dv tables.length 1 tables (startState tables)) ot
    cases coe with
    | true =>
      obtain ⟨h1, h2, h3⟩ :=
        runTables_true_spec db dv tables.length tables 1 (startState tables) rfl
      rw [hf.2.2.2.2.2, h2]
      simp [startState, countFailureEvents]
    | false =>
      rcases runTables_false_spec db dv tables.length tables 1 (startState tables)
          rfl (by simp [startState, countFailureEvents]) with ⟨g1, g2, g3⟩ | ⟨g1, g2⟩
      · rw [hf.2.2.2.2.2, g2, hf.1, g1]
        simp
      · rw [hf.2.2.2.2.2, g2, hf.1]
        simp [g1]

/-- C3 counterexample: a run over a single invalid mapping entry (both
table names missing) completes without aborting, yet
`success_tables + failed_tables = 0 ≠ 1 = total_tables` — equality at
run end fails when the list contains invalid entries, because they are
counted in `total_tables` but never attempted. -/
theorem runStats_equality_counterexample :
    (migrateAllTables true true true [⟨none, none, none, envAllOk⟩] 1).aborted = none ∧
    (migrateAllTables true true true [⟨none, none, none, envAllOk⟩] 1).stats.success_tables +
      (migrateAllTables true true true [⟨none, none, none, envAllOk⟩] 1).stats.failed_tables = 0 ∧
    (migrateAllTables true true true [⟨none, none, none, envAllOk⟩] 1).stats.total_tables = 1 := by
  decide

/-- C3 amended: `success_tables + failed_tables ≤ total_tables` holds at
every point of a run (after any prefix of the entries, and at the end),
and when the run does not abort early the sum equals the number of VALID
mapping entries — so equality with `total_tables` holds at run end
exactly when no abort occurred and every entry was valid; invalid
entries are counted in `total_tables` but never attempted. -/
theorem runStats_counts_invariant (coe db dv : Bool)
    (tables : List TableConfig) (ot : Rat) :
    (∀ k : Nat,
      (runTables coe db dv tables.length 1 (tables.take k)
          (startState tables)).stats.success_tables +
        (runTables coe db dv tables.length 1 (tables.take k)
          (startState tables)).stats.failed_tables ≤
        (runTables coe db dv tables.length 1 (tables.take k)
          (startState tables)).stats.total_tables) ∧
    ((migrateAllTables coe db dv tables ot).stats.success_tables +
      (migrateAllTables coe db dv tables ot).stats.failed_tables ≤
      (migrateAllTables coe db dv tables ot).stats.total_tables) ∧
    ((migrateAllTables coe db dv tables ot).aborted = none →
      (migrateAllTables coe db dv tables ot).stats.success_tables +
        (migrateAllTables coe db dv tables ot).stats.failed_tables =
        countValid tables) := by
  have hstart : (startState tables).stats.success_tables = 0 ∧
      (startState tables).stats.failed_tables = 0 ∧
      (startState tables).stats.total_tables = tables.length := ⟨rfl, rfl, rfl⟩
  refine ⟨?_, ?_, ?_⟩
  · intro k
    have h1 := runTables_counts_le coe db dv tables.length (tables.take k) 1
      (startState tables)
    have h2 := runTables_total_tables coe db dv tables.length (tables.take k) 1
      (startState tables)
    have h3 : (tables.take k).length ≤ tables.length := by
      simp [List.length_take]
    rw [h2, hstart.2.2]
    omega
  · unfold migrateAllTables
    by_cases he : tables.isEmpty
    · rw [if_pos he]
      simp [initStats]
    · rw [if_neg he]
      have hf := finalizeRun_fields
        (runTables coe db dv tables.length 1 tables (startState tables)) ot
      rw [hf.2.1, hf.2.2.1, hf.2.2.2.1]
      have h1 := runTables_counts_le coe db dv tables.length tables 1
        (startState tables)
      have h2 := runTables_total_tables coe db dv tables.length tables 1
        (startState tables)
      rw [h2, hstart.2.2]
      omega
  · intro hab
    unfold migrateAllTables at hab ⊢
    by_cases he : tables.isEmpty
    · rw [if_pos he] at hab ⊢
      have : tables = [] := List.isEmpty_iff.mp he
      simp [this, countValid, initStats]
    · rw [if_neg he] at hab ⊢
      have hf := finalizeRun_fields
        (runTables coe db dv tables.length 1 tables (startState tables)) ot
      rw [hf.1] at hab
      rw [hf.2.1, hf.2.2.1]
      cases coe with
      | true =>
        obtain ⟨h1, h2, h3⟩ :=
          runTables_true_spec db dv tables.length tables 1 (startState tables) rfl
        rw [h3, hstart.1, hstart.2.1]
        omega
      | false =>
        rcases runTables_false_spec db dv tables.length tables 1 (startState tables)
            rfl (by simp [startState, countFailureEvents]) with ⟨g1, g2, g3⟩ | ⟨g1, g2⟩
        · rw [g3, hstart.1, hstart.2.1]
          omega
        · rw [hab] at g1
          cases g1

/-- Witness for C3 amended: a completed one-table run with a valid entry
reaches equality `success + failed = countValid = 1`. -/
theorem runStats_counts_invariant_witness :
    (migrateAllTables true true true [⟨some "a", some "b", none, envAllOk⟩] 1).stats.success_tables +
      (migrateAllTables true true true [⟨some "a", some "b", none, envAllOk⟩] 1).stats.failed_tables =
      countValid [⟨some "a", some "b", none, envAllOk⟩] :=
  (runStats_counts_invariant true true true [⟨some "a", some "b", none, envAllOk⟩] 1).2.2 (by decide)

/-- C7: when every step succeeds, the transfer completes, and the
verification comparison runs and returns false (a count mismatch), the
per-table result still has `status = success` with `verified = false` —
a verification mismatch never fails the table. -/
theorem verificationMismatch_still_success (env : TableEnv) (coe db : Bool)
    (mt ct : String) (rows : Nat) (speed : Rat)
    (h1 : env.structureResult = Except.ok ())
    (h2 : env.primaryKeyResult = Except.ok ())
    (h3 : env.dropResult = Except.ok ())
    (h4 : env.createResult = Except.ok ())
    (h5 : env.dataResult = Except.ok (rows, speed))
    (h6 : env.verifyResult = Except.ok false) :
    migrateTable env coe db true mt ct =
      Except.ok ⟨mt, ct, rows, env.elapsed, speed, Status.success, false, none⟩ := by
  cases db <;> simp [migrateTable, h1, h2, h3, h4, h5, h6]

/-- Witness for C7 at a concrete environment. -/
theorem verificationMismatch_still_success_witness :
    migrateTable envVerifyFalse true true true "x" "y" =
      Except.ok ⟨"x", "y", 9, 1, 4, Status.success, false, none⟩ :=
  verificationMismatch_still_success envVerifyFalse true true "x" "y" 9 4
    rfl rfl rfl rfl rfl rfl

/-- C10: when the data transfer completes with `rows` rows at `speed`
but the verification step raises, the recorded per-table result has
`status = failed`, a non-null error, and the elapsed time, while `rows`
and `speed` retain the values from the completed transfer; with
continue-on-error disabled nothing is recorded — the exception
propagates instead. -/
theorem verifyException_retains_rows (env : TableEnv) (db : Bool)
    (mt ct : String) (rows : Nat) (speed : Rat) (e : String)
    (h1 : env.structureResult = Except.ok ())
    (h2 : env.primaryKeyResult = Except.ok ())
    (h3 : env.dropResult = Except.ok ())
    (h4 : env.createResult = Except.ok ())
    (h5 : env.dataResult = Except.ok (rows, speed))
    (h6 : env.verifyResult = Except.error e) :
    migrateTable env true db true mt ct =
      Except.ok ⟨mt, ct, rows, env.elapsed, speed, Status.failed, false, some e⟩ ∧
    migrateTable env false db true mt ct = Except.error e := by
  constructor <;> cases db <;>
    simp [migrateTable, tableFail, h1, h2, h3, h4, h5, h6]

/-- Witness for C10 at a concrete environment. -/
theorem verifyException_retains_rows_witness :
    migrateTable envBadVerify true true true "x" "y" =
      Except.ok ⟨"x", "y", 7, 1, 3, Status.failed, false, some "vfail"⟩ ∧
    migrateTable envBadVerify false true true "x" "y" = Except.error "vfail" :=
  verifyException_retains_rows envBadVerify true "x" "y" 7 3 "vfail"
    rfl rfl rfl rfl rfl rfl

/-- C5: a run over two valid table mappings where the first table
migrates successfully and the second table's schema introspection
raises, under continue-on-error, yields total 2, success 1, failed 1,
and a recorded result for the failing table with `status = failed`,
non-null error, and `rows = 0`. -/
theorem twoTables_second_introspection_fails (mt1 ct1 mt2 ct2 : String)
    (v1 v2 : Option Bool) (env1 env2 : TableEnv) (db dv : Bool) (ot : Rat)
    (r1 : TableResult) (e : String)
    (hmt1 : mt1 ≠ "") (hct1 : ct1 ≠ "") (hmt2 : mt2 ≠ "") (hct2 : ct2 ≠ "")
    (h1 : migrateTable env1 true db (v1.getD dv) mt1 ct1 = Except.ok r1)
    (h2 : r1.status = Status.success)
    (h3 : env2.structureResult = Except.error e) :
    (migrateAllTables true db dv
        [⟨some mt1, some ct1, v1, env1⟩, ⟨some mt2, some ct2, v2, env2⟩]
        ot).stats.total_tables = 2 ∧
    (migrateAllTables true db dv
        [⟨some mt1, some ct1, v1, env1⟩, ⟨some mt2, some ct2, v2, env2⟩]
        ot).stats.success_tables = 1 ∧
    (migrateAllTables true db dv
        [⟨some mt1, some ct1, v1, env1⟩, ⟨some mt2, some ct2, v2, env2⟩]
        ot).stats.failed_tables = 1 ∧
    (migrateAllTables true db dv
        [⟨some mt1, some ct1, v1, env1⟩, ⟨some mt2, some ct2, v2, env2⟩]
        ot).stats.table_details =
      [r1, ⟨mt2, ct2, 0, env2.elapsed, 0, Status.failed, false, some e⟩] := by
  have hm2 : migrateTable env2 true db (v2.getD dv) mt2 ct2 =
      Except.ok ⟨mt2, ct2, 0, env2.elapsed, 0, Status.failed, false, some e⟩ := by
    unfold migrateTable
    rw [h3]
    rfl
  have e1 : ∀ (total idx : Nat),
      processEntry true db dv total idx ⟨some mt1, some ct1, v1, env1⟩
        (startState [⟨some mt1, some ct1, v1, env1⟩, ⟨some mt2, some ct2, v2, env2⟩]) =
      ⟨⟨2, 1, 0, r1.rows, 0, 0, [r1]⟩, [.start], none⟩ := by
    intro total idx
    unfold processEntry startState
    simp [pythonTruthy_some mt1 hmt1, pythonTruthy_some ct1 hct1, h1, h2, initStats]
  have e2 : ∀ (total idx : Nat),
      processEntry true db dv total idx ⟨some mt2, some ct2, v2, env2⟩
        (⟨⟨2, 1, 0, r1.rows, 0, 0, [r1]⟩, [.start], none⟩ : RunState) =
      ⟨⟨2, 1, 1, r1.rows, 0, 0,
        [r1, ⟨mt2, ct2, 0, env2.elapsed, 0, Status.failed, false, some e⟩]⟩,
        [.start], none⟩ := by
    intro total idx
    unfold processEntry
    simp [pythonTruthy_some mt2 hmt2, pythonTruthy_some ct2 hct2, hm2]
  unfold migrateAllTables
  rw [if_neg (by simp)]
  simp only [runTables]
  rw [e1, e2]
  exact ⟨rfl, rfl, rfl, rfl⟩

/-- Witness for C5 at concrete environments. -/
theorem twoTables_second_introspection_fails_witness :
    (migrateAllTables true true true
        [⟨some "a", some "b", none, envAllOk⟩, ⟨some "c", some "d", none, envBadStructure⟩]
        1).stats.total_tables = 2 ∧
    (migrateAllTables true true true
        [⟨some "a", some "b", none, envAllOk⟩, ⟨some "c", some "d", none, envBadStructure⟩]
        1).stats.success_tables = 1 ∧
    (migrateAllTables true true true
        [⟨some "a", some "b", none, envAllOk⟩, ⟨some "c", some "d", none, envBadStructure⟩]
        1).stats.failed_tables = 1 ∧
    (migrateAllTables true true true
        [⟨some "a", some "b", none, envAllOk⟩, ⟨some "c", some "d", none, envBadStructure⟩]
        1).stats.table_details =
      [⟨"a", "b", 5, 1, 2, Status.success, true, none⟩,
       ⟨"c", "d", 0, 1, 0, Status.failed, false, some "boom"⟩] :=
  twoTables_second_introspection_fails "a" "b" "c" "d" none none
    envAllOk envBadStructure true true 1
    ⟨"a", "b", 5, 1, 2, Status.success, true, none⟩ "boom"
    (by decide) (by decide) (by decide) (by decide) rfl rfl rfl
